import Mathlib

/-!
Verification of the AgenticCFD visualization scripts.

This file gives a shallow embedding, in Lean 4, of the reusable core of the
repository's visualization scripts (`src/visualization_scripts/`): the
OpenFOAM field-file parsers, the timestep-directory scanners, the
interface-slice selection, the phase-bucket partition, and the GIF assembly
with temporary-file cleanup.  Floating-point values are modelled as rationals
(`ℚ`); the Python built-in `float(str)` conversion is treated as an oracle
parameter `pf : String → Option ℚ` (`none` models a `ValueError`), and a
concrete simple decimal parser `parseDecimal` instantiates it in witnesses.
Filesystem reads are modelled by passing the file's line list (the result of
`content.split('\n')`) as an `Option`, where `none` models an unreadable or
missing file (the `except` path of the Python code).
-/

/-- Model of Python `small.startsWith`-style check on character lists:
`listStarts s p` is true when `p` is an initial segment of `s`. -/
def listStarts : List Char → List Char → Bool
  | _, [] => true
  | [], _ :: _ => false
  | c :: cs, d :: ds => c == d && listStarts cs ds

/-- Model of Python's substring containment `p in s` on character lists. -/
def listHasSub : List Char → List Char → Bool
  | [], p => p.isEmpty
  | c :: cs, p => listStarts (c :: cs) p || listHasSub cs p

/-- Python `pat in s` for strings. -/
def strHasSub (s pat : String) : Bool := listHasSub s.data pat.data

/-- Python `s.startswith(pat)`. -/
def pyStartsWith (s pat : String) : Bool := listStarts s.data pat.data

/-- Python `s.strip()`: drop leading and trailing whitespace. -/
def pyStrip (s : String) : String :=
  ⟨((s.data.dropWhile Char.isWhitespace).reverse.dropWhile Char.isWhitespace).reverse⟩

/-- Python truthiness of a string: nonempty. -/
def pyTruthy (s : String) : Bool := !s.data.isEmpty

/-- Python `s.isdigit()` (restricted to ASCII digits): nonempty and every
character a digit. -/
def pyIsDigit (s : String) : Bool := !s.data.isEmpty && s.data.all Char.isDigit

/-- Numeric value of a digit list, most significant first. -/
def decVal (cs : List Char) : ℕ := cs.foldl (fun a c => 10 * a + (c.toNat - 48)) 0

/-- Parse an unsigned decimal literal (`"12"`, `"0.05"`, `"1."`, `".5"`) into a
rational.  Modelled from Python's `float()` acceptance of simple decimal
literals; used to instantiate the float-parsing oracle in concrete witnesses. -/
def parseUnsignedChars (cs : List Char) : Option ℚ :=
  let a := cs.takeWhile (fun c => c != '.')
  let r := cs.dropWhile (fun c => c != '.')
  match r with
  | [] => if !a.isEmpty && a.all Char.isDigit then some (decVal a) else none
  | _ :: b =>
    if (!a.isEmpty || !b.isEmpty) && a.all Char.isDigit && b.all Char.isDigit then
      some ((decVal a : ℚ) + (decVal b : ℚ) / (10 : ℚ) ^ b.length)
    else none

/-- Simple model of Python `float(s)` on plain decimal literals (optional sign,
digits, optional fractional part); `none` models a `ValueError`. -/
def parseDecimal (s : String) : Option ℚ :=
  match (pyStrip s).data with
  | '-' :: cs => (parseUnsignedChars cs).map (fun q => -q)
  | '+' :: cs => parseUnsignedChars cs
  | cs => parseUnsignedChars cs

/-- Data-block scan of `read_openfoam_scalar_field`
(`simple_boiling_gif.py`, lines 26-40): iterate over stripped lines; a line
containing both `internalField` and `nonuniform` switches into the data
section; inside it, `)` or `);` stops the scan, and every nonempty line that
does not start with `(` and is not all digits is parsed with `float` and
collected (a `ValueError` is skipped). -/
def scanDataSection (pf : String → Option ℚ) : List String → Bool → List ℚ
  | [], _ => []
  | l :: rest, inData =>
    let line := pyStrip l
    if strHasSub line "internalField" && strHasSub line "nonuniform" then
      scanDataSection pf rest true
    else if inData then
      if line == ")" || line == ");" then []
      else if pyTruthy line && !pyStartsWith line "(" && !pyIsDigit line then
        match pf line with
        | some v => v :: scanDataSection pf rest inData
        | none => scanDataSection pf rest inData
      else scanDataSection pf rest inData
    else scanDataSection pf rest inData

/-- `read_openfoam_scalar_field(filepath, expected_cells)` of
`simple_boiling_gif.py` (lines 15-54).  `content = none` models an unreadable
file (the `except` path).  The second component records whether a
warning/error message was printed. -/
def read_openfoam_scalar_field (pf : String → Option ℚ)
    (content : Option (List String)) (expected_cells : ℕ) : List ℚ × Bool :=
  match content with
  | none => (List.replicate expected_cells 0, true)
  | some lines =>
    let data_values := scanDataSection pf lines false
    if data_values.length ≠ expected_cells then
      if data_values.length < expected_cells then
        (data_values ++ List.replicate (expected_cells - data_values.length) 0, true)
      else
        (data_values.take expected_cells, true)
    else (data_values, false)

/-- Data-block scan of `read_field_robust` (`ultimate_3d_boiling_viz.py`,
lines 28-41): same marker/stop logic; inside the data section every truthy
line that does not start with `(` and is not all digits is parsed and
collected. -/
def scanDataRobust (pf : String → Option ℚ) : List String → Bool → List ℚ
  | [], _ => []
  | l :: rest, inData =>
    let line := pyStrip l
    if strHasSub line "internalField" && strHasSub line "nonuniform" then
      scanDataRobust pf rest true
    else if inData && (line == ")" || line == ");") then []
    else if inData && pyTruthy line then
      if !pyStartsWith line "(" && !pyIsDigit line then
        match pf line with
        | some v => v :: scanDataRobust pf rest inData
        | none => scanDataRobust pf rest inData
      else scanDataRobust pf rest inData
    else scanDataRobust pf rest inData

/-- `read_field_robust(filepath, expected_cells)` of
`ultimate_3d_boiling_viz.py` (lines 17-53): pads a short result with the last
collected value (`values[-1] if values else 0.0`), truncates a long one; an
unreadable file yields all zeros with an error message. -/
def read_field_robust (pf : String → Option ℚ)
    (content : Option (List String)) (expected_cells : ℕ) : List ℚ × Bool :=
  match content with
  | none => (List.replicate expected_cells 0, true)
  | some lines =>
    let values := scanDataRobust pf lines false
    if values.length < expected_cells then
      (values ++ List.replicate (expected_cells - values.length) (values.getLastD 0), false)
    else if expected_cells < values.length then
      (values.take expected_cells, false)
    else (values, false)

/-- C1: for every field file and expected cell count `N`, each parser variant
returns a flat numeric sequence of length exactly `N`: the scanned data-block
values in file order when there are exactly `N` of them, the values followed
by a repeated trailing fill value (`0.0` for `read_openfoam_scalar_field`, the
last collected value for `read_field_robust`) when there are fewer, and the
first `N` values when there are more; a size mismatch never raises a hard
failure. -/
theorem parser_returns_expected_length (pf : String → Option ℚ)
    (lines : List String) (N : ℕ) :
    ((read_openfoam_scalar_field pf (some lines) N).1.length = N ∧
      ((scanDataSection pf lines false).length = N →
        (read_openfoam_scalar_field pf (some lines) N).1 = scanDataSection pf lines false) ∧
      ((scanDataSection pf lines false).length < N →
        (read_openfoam_scalar_field pf (some lines) N).1 =
          scanDataSection pf lines false ++
            List.replicate (N - (scanDataSection pf lines false).length) 0) ∧
      (N < (scanDataSection pf lines false).length →
        (read_openfoam_scalar_field pf (some lines) N).1 =
          (scanDataSection pf lines false).take N)) ∧
    ((read_field_robust pf (some lines) N).1.length = N ∧
      ((scanDataRobust pf lines false).length = N →
        (read_field_robust pf (some lines) N).1 = scanDataRobust pf lines false) ∧
      ((scanDataRobust pf lines false).length < N →
        (read_field_robust pf (some lines) N).1 =
          scanDataRobust pf lines false ++
            List.replicate (N - (scanDataRobust pf lines false).length)
              ((scanDataRobust pf lines false).getLastD 0)) ∧
      (N < (scanDataRobust pf lines false).length →
        (read_field_robust pf (some lines) N).1 = (scanDataRobust pf lines false).take N)) := by
  constructor
  · rcases Nat.lt_trichotomy (scanDataSection pf lines false).length N with hlt | heq | hgt
    · have hne : (scanDataSection pf lines false).length ≠ N := by omega
      refine ⟨?_, fun hc => absurd hc hne, fun _ => ?_, fun hc => by omega⟩
      · simp [read_openfoam_scalar_field, hne, hlt]; omega
      · simp [read_openfoam_scalar_field, hne, hlt]
    · refine ⟨?_, fun _ => ?_, fun hc => by omega, fun hc => by omega⟩
      · simp [read_openfoam_scalar_field, heq]
      · simp [read_openfoam_scalar_field, heq]
    · have hne : (scanDataSection pf lines false).length ≠ N := by omega
      have hnlt : ¬ (scanDataSection pf lines false).length < N := by omega
      refine ⟨?_, fun hc => absurd hc hne, fun hc => by omega, fun _ => ?_⟩
      · simp [read_openfoam_scalar_field, hne, hnlt]; omega
      · simp [read_openfoam_scalar_field, hne, hnlt]
  · rcases Nat.lt_trichotomy (scanDataRobust pf lines false).length N with hlt | heq | hgt
    · refine ⟨?_, fun hc => by omega, fun _ => ?_, fun hc => by omega⟩
      · simp [read_field_robust, hlt]; omega
      · simp [read_field_robust, hlt]
    · have h1 : ¬ (scanDataRobust pf lines false).length < N := by omega
      have h2 : ¬ N < (scanDataRobust pf lines false).length := by omega
      refine ⟨?_, fun _ => ?_, fun hc => by omega, fun hc => by omega⟩
      · simp [read_field_robust, h1, h2, heq]
      · simp [read_field_robust, h1, h2]
    · have h1 : ¬ (scanDataRobust pf lines false).length < N := by omega
      refine ⟨?_, fun hc => by omega, fun hc => by omega, fun _ => ?_⟩
      · simp [read_field_robust, h1, hgt]; omega
      · simp [read_field_robust, h1, hgt]

/-- Example field-file content used by concrete witnesses: a nonuniform
internal field whose data block holds the two values `-2` and `-3`. -/
def sampleLines : List String :=
  ["FoamFile", "internalField   nonuniform List<scalar>", "3", "(", "-2", "-3", ")"]

/-- Witness for C1 at a concrete short file: with expected count 4, the simple
parser pads with zeros and the robust parser repeats the last value. -/
theorem parser_returns_expected_length_witness :
    (read_openfoam_scalar_field parseDecimal (some sampleLines) 4).1 = [-2, -3, 0, 0] ∧
    (read_field_robust parseDecimal (some sampleLines) 4).1 = [-2, -3, -3, -3] := by
  have h := parser_returns_expected_length parseDecimal sampleLines 4
  refine ⟨(h.1.2.2.1 (by decide)).trans (by decide), (h.2.2.2.1 (by decide)).trans (by decide)⟩

/-- C6: for every field file path that is missing or unreadable (the `except`
path, modelled by `content = none`), both parser variants return a same-shape
all-zero result (length `expected_cells`, every entry `0`) and print a
warning, and the call returns normally rather than aborting. -/
theorem missing_file_yields_zero_field (pf : String → Option ℚ) (expected_cells : ℕ) :
    read_openfoam_scalar_field pf none expected_cells =
      (List.replicate expected_cells 0, true) ∧
    read_field_robust pf none expected_cells =
      (List.replicate expected_cells 0, true) :=
  ⟨rfl, rfl⟩

/-- One entry of `os.listdir(case_dir)` together with the filesystem facts the
scanners query about it: whether `os.path.join(case_dir, item)` is a
directory, and whether it contains the files `alpha.water` and `T`. -/
structure DirEntry where
  name : String
  isDir : Bool
  hasAlphaWater : Bool
  hasT : Bool
deriving DecidableEq

/-- Timestep scanner `_find_time_directories` of
`create_boiling_animation.py` (lines 46-66): keep entries whose name parses as
a float (a `ValueError` silently skips the entry) and whose path is a
directory containing both `alpha.water` and `T`; return the time values
sorted ascending (`sorted(time_dirs)` on floats, modelled by a stable
insertion sort with `≤`). -/
def find_time_directories (pf : String → Option ℚ) (entries : List DirEntry) : List ℚ :=
  let time_dirs := entries.filterMap (fun e =>
    match pf e.name with
    | none => none
    | some time_val =>
      if e.isDir && e.hasAlphaWater && e.hasT then some time_val else none)
  List.insertionSort (· ≤ ·) time_dirs

/-- Python tuple comparison `(time_val, time_path) <= (time_val', time_path')`:
lexicographic on the float then the path string. -/
def pyPairLe (a b : ℚ × String) : Bool :=
  decide (a.1 < b.1) || (decide (a.1 = b.1) && decide (a.2 ≤ b.2))

/-- Timestep scan of `create_boiling_gif` (`simple_boiling_gif.py`, lines
145-156): collect `(time_val, time_path)` for entries whose name parses as a
float and whose path is a directory containing `alpha.water` (the `T` file is
not checked here); `time_dirs.sort()` sorts the tuples lexicographically. -/
def scanTimeDirsSimple (pf : String → Option ℚ) (case_dir : String)
    (entries : List DirEntry) : List (ℚ × String) :=
  let time_dirs := entries.filterMap (fun e =>
    match pf e.name with
    | none => none
    | some time_val =>
      if e.isDir && e.hasAlphaWater then some (time_val, case_dir ++ "/" ++ e.name)
      else none)
  List.insertionSort (fun a b => pyPairLe a b = true) time_dirs

theorem pyPairLe_trans (a b c : ℚ × String) (hab : pyPairLe a b = true)
    (hbc : pyPairLe b c = true) : pyPairLe a c = true := by
  simp only [pyPairLe, Bool.or_eq_true, Bool.and_eq_true, decide_eq_true_eq] at *
  rcases hab with h1 | ⟨h1, h1'⟩ <;> rcases hbc with h2 | ⟨h2, h2'⟩
  · exact Or.inl (lt_trans h1 h2)
  · exact Or.inl (h2 ▸ h1)
  · exact Or.inl (h1 ▸ h2)
  · exact Or.inr ⟨h1.trans h2, le_trans h1' h2'⟩

theorem pyPairLe_total (a b : ℚ × String) : pyPairLe a b = true ∨ pyPairLe b a = true := by
  simp only [pyPairLe, Bool.or_eq_true, Bool.and_eq_true, decide_eq_true_eq]
  rcases lt_trichotomy a.1 b.1 with h | h | h
  · exact Or.inl (Or.inl h)
  · rcases le_total a.2 b.2 with h' | h'
    · exact Or.inl (Or.inr ⟨h, h'⟩)
    · exact Or.inr (Or.inr ⟨h.symm, h'⟩)
  · exact Or.inr (Or.inl h)

theorem pyPairLe_fst_le (a b : ℚ × String) (h : pyPairLe a b = true) : a.1 ≤ b.1 := by
  simp only [pyPairLe, Bool.or_eq_true, Bool.and_eq_true, decide_eq_true_eq] at h
  rcases h with h | ⟨h, -⟩
  · exact le_of_lt h
  · exact le_of_eq h

/-- C2: both timestep scanners return the discovered time values sorted
ascending by numeric value: in `_find_time_directories` the returned list of
times is pairwise `≤`, and in the `create_boiling_gif` scan the first
components of the sorted `(time, path)` tuples are pairwise `≤`. -/
theorem scanner_returns_sorted_times (pf : String → Option ℚ) (case_dir : String)
    (entries : List DirEntry) :
    (find_time_directories pf entries).Pairwise (· ≤ ·) ∧
    ((scanTimeDirsSimple pf case_dir entries).map Prod.fst).Pairwise (· ≤ ·) := by
  constructor
  · exact List.sorted_insertionSort _ _
  · rw [List.pairwise_map]
    haveI : IsTotal (ℚ × String) (fun a b => pyPairLe a b = true) := ⟨pyPairLe_total⟩
    haveI : IsTrans (ℚ × String) (fun a b => pyPairLe a b = true) :=
      ⟨fun a b c => pyPairLe_trans a b c⟩
    have hs := List.sorted_insertionSort (fun a b => pyPairLe a b = true)
      (entries.filterMap (fun e =>
        match pf e.name with
        | none => none
        | some time_val =>
          if e.isDir && e.hasAlphaWater then some (time_val, case_dir ++ "/" ++ e.name)
          else none))
    exact List.Pairwise.imp (fun h => pyPairLe_fst_le _ _ h) hs

/-- C3 counterexample: the `create_boiling_gif` timestep scan includes a
directory that is missing the temperature file `T`.  The single listed entry
is a directory named `"3"` containing `alpha.water` but not `T`, yet its time
value is returned, so the claim that the scanner never includes a directory
missing either required field file is false for this variant. -/
theorem scanner_includes_dir_missing_T :
    ¬ (∀ x ∈ scanTimeDirsSimple parseDecimal "." [⟨"3", true, true, false⟩],
        ∃ e ∈ [(⟨"3", true, true, false⟩ : DirEntry)],
          parseDecimal e.name = some x.1 ∧ e.isDir = true ∧
            e.hasAlphaWater = true ∧ e.hasT = true) := by
  decide

/-- C3 (amended): every time value returned by `_find_time_directories`
(`create_boiling_animation.py`) corresponds to a listed entry that is a
directory containing both `alpha.water` and `T`; the `create_boiling_gif`
scan (`simple_boiling_gif.py`) guarantees only that the entry is a directory
containing `alpha.water` — it does not check for `T`, so it may include a
directory missing the temperature file. -/
theorem scanner_membership_amended (pf : String → Option ℚ) (case_dir : String)
    (entries : List DirEntry) :
    (∀ t ∈ find_time_directories pf entries,
      ∃ e ∈ entries, pf e.name = some t ∧ e.isDir = true ∧
        e.hasAlphaWater = true ∧ e.hasT = true) ∧
    (∀ x ∈ scanTimeDirsSimple pf case_dir entries,
      ∃ e ∈ entries, pf e.name = some x.1 ∧ e.isDir = true ∧
        e.hasAlphaWater = true) := by
  constructor
  · intro t ht
    rw [find_time_directories, List.mem_insertionSort, List.mem_filterMap] at ht
    obtain ⟨e, he, hfe⟩ := ht
    refine ⟨e, he, ?_⟩
    rcases hpf : pf e.name with _ | v
    · rw [hpf] at hfe; exact absurd hfe (by simp)
    · rw [hpf] at hfe
      by_cases hc : e.isDir && e.hasAlphaWater && e.hasT
      · obtain ⟨h1, h2⟩ := Bool.and_eq_true_iff.mp hc
        obtain ⟨h3, h4⟩ := Bool.and_eq_true_iff.mp h1
        simp [hc] at hfe
        subst hfe
        exact ⟨rfl, h3, h4, h2⟩
      · simp [hc] at hfe
  · intro x hx
    rw [scanTimeDirsSimple, List.mem_insertionSort, List.mem_filterMap] at hx
    obtain ⟨e, he, hfe⟩ := hx
    refine ⟨e, he, ?_⟩
    rcases hpf : pf e.name with _ | v
    · rw [hpf] at hfe; exact absurd hfe (by simp)
    · rw [hpf] at hfe
      by_cases hc : e.isDir && e.hasAlphaWater
      · obtain ⟨h1, h2⟩ := Bool.and_eq_true_iff.mp hc
        simp [hc] at hfe
        subst hfe
        exact ⟨rfl, h1, h2⟩
      · simp [hc] at hfe

/-- Witness for the amended C3 at a concrete listing: the animation scanner
returns time `3` only because the entry named `"3"` is a directory holding
both required field files. -/
theorem scanner_membership_amended_witness :
    ∃ e ∈ [(⟨"3", true, true, true⟩ : DirEntry)],
      parseDecimal e.name = some 3 ∧ e.isDir = true ∧
        e.hasAlphaWater = true ∧ e.hasT = true :=
  (scanner_membership_amended parseDecimal "." [⟨"3", true, true, true⟩]).1 3 (by decide)

/-- Interface-cell count of one horizontal slice:
`np.sum((slice_2d > 0.1) & (slice_2d < 0.9))` with the slice flattened to a
list (the float literals `0.1` and `0.9` are modelled as the exact rationals
`1/10` and `9/10`). -/
def countInterface (slice : List ℚ) : ℕ :=
  (slice.filter (fun a => decide (mkRat 1 10 < a) && decide (a < mkRat 9 10))).length

/-- Loop of `create_boiling_frame` (`simple_boiling_gif.py`, lines 77-85):
carry the current `best_slice` and `max_interface` over the layers, updating
both exactly when a layer's interface count strictly exceeds the running
maximum; `k` is the index of the next layer. -/
def goBestSlice : List (List ℚ) → ℕ → ℕ → ℕ → ℕ × ℕ
  | [], _, best, maxI => (best, maxI)
  | s :: rest, k, best, maxI =>
    if maxI < countInterface s then goBestSlice rest (k + 1) k (countInterface s)
    else goBestSlice rest (k + 1) best maxI

/-- Slice selection of `create_boiling_frame`: start from the default
`best_slice = nz // 4` with `max_interface = 0` and scan all layers. -/
def findBestSlice (alpha3d : List (List ℚ)) : ℕ :=
  (goBestSlice alpha3d 0 (alpha3d.length / 4) 0).1

/-- Per-layer interface activity list of `_create_interface_slice`
(`create_boiling_animation.py`, lines 124-129). -/
def interface_activity (alpha3d : List (List ℚ)) : List ℕ :=
  alpha3d.map countInterface

/-- `np.argmax`: index of the first occurrence of the maximum. -/
def argmaxIdx : List ℕ → ℕ
  | [] => 0
  | x :: xs => if xs.foldr max 0 ≤ x then 0 else argmaxIdx xs + 1

/-- Slice-index selection of `_create_interface_slice`
(`create_boiling_animation.py`, lines 121-139) when no explicit index is
passed: the argmax of the interface activity if any layer has positive
activity, else the default `nz // 3`. -/
def createInterfaceSliceIdx (alpha3d : List (List ℚ)) : ℕ :=
  let act := interface_activity alpha3d
  if 0 < act.foldr max 0 then argmaxIdx act else alpha3d.length / 3

theorem goBestSlice_snd (rest : List (List ℚ)) :
    ∀ k best maxI, (goBestSlice rest k best maxI).2 =
      max maxI ((rest.map countInterface).foldr max 0) := by
  induction rest with
  | nil => intro k best maxI; simp [goBestSlice]
  | cons s rest ih =>
    intro k best maxI
    by_cases h : maxI < countInterface s
    · simp only [goBestSlice, if_pos h, ih, List.map_cons, List.foldr_cons]
      omega
    · simp only [goBestSlice, if_neg h, ih, List.map_cons, List.foldr_cons]
      omega

theorem goBestSlice_fst (rest : List (List ℚ)) :
    ∀ k best maxI,
      ((goBestSlice rest k best maxI).1 = best ∧ (goBestSlice rest k best maxI).2 = maxI)
      ∨ (∃ i, i < rest.length ∧ (goBestSlice rest k best maxI).1 = k + i ∧
          (goBestSlice rest k best maxI).2 = countInterface (rest.getD i []) ∧
          maxI < (goBestSlice rest k best maxI).2) := by
  induction rest with
  | nil => intro k best maxI; exact Or.inl ⟨rfl, rfl⟩
  | cons s rest ih =>
    intro k best maxI
    by_cases h : maxI < countInterface s
    · simp only [goBestSlice, if_pos h]
      rcases ih (k + 1) k (countInterface s) with ⟨h1, h2⟩ | ⟨i, hi, h1, h2, h3⟩
      · exact Or.inr ⟨0, by simp, by simpa using h1, by simpa using h2, by omega⟩
      · exact Or.inr ⟨i + 1, by simpa using hi, by omega, by simpa using h2, by omega⟩
    · simp only [goBestSlice, if_neg h]
      rcases ih (k + 1) best maxI with hl | ⟨i, hi, h1, h2, h3⟩
      · exact Or.inl hl
      · exact Or.inr ⟨i + 1, by simpa using hi, by omega, by simpa using h2, h3⟩

theorem foldr_max_le_of_mem {L : List ℕ} {x : ℕ} (h : x ∈ L) : x ≤ L.foldr max 0 := by
  induction L with
  | nil => cases h
  | cons a L ih =>
    rcases List.mem_cons.mp h with rfl | h'
    · simp only [List.foldr_cons]
      omega
    · have := ih h'
      simp only [List.foldr_cons]
      omega

theorem foldr_max_zero {L : List ℕ} (h : ∀ x ∈ L, x = 0) : L.foldr max 0 = 0 := by
  induction L with
  | nil => rfl
  | cons a L ih =>
    have ha := h a (by simp)
    have := ih (fun x hx => h x (by simp [hx]))
    simp only [List.foldr_cons]
    omega

theorem getD_map_countInterface (l : List (List ℚ)) :
    ∀ i, (l.map countInterface).getD i 0 = countInterface (l.getD i []) := by
  induction l with
  | nil => intro i; simp [countInterface]
  | cons s l ih =>
    intro i
    cases i with
    | zero => simp
    | succ n => simpa using ih n

theorem argmaxIdx_lt_length (L : List ℕ) (h : L ≠ []) : argmaxIdx L < L.length := by
  induction L with
  | nil => exact absurd rfl h
  | cons x xs ih =>
    by_cases hx : xs.foldr max 0 ≤ x
    · simp [argmaxIdx, hx]
    · have hxs : xs ≠ [] := by
        intro hc
        rw [hc] at hx
        simp at hx
      simp only [argmaxIdx, if_neg hx, List.length_cons]
      have := ih hxs
      omega

theorem argmaxIdx_getD (L : List ℕ) : L.getD (argmaxIdx L) 0 = L.foldr max 0 := by
  induction L with
  | nil => rfl
  | cons x xs ih =>
    by_cases hx : xs.foldr max 0 ≤ x
    · simp only [argmaxIdx, if_pos hx, List.getD_cons_zero, List.foldr_cons]
      omega
    · simp only [argmaxIdx, if_neg hx, List.getD_cons_succ, List.foldr_cons, ih]
      omega

/-- C4: the 2D frame renderers select a horizontal slice index whose
interface-cell count (volume fraction strictly between `0.1` and `0.9`) is
the greatest over all layers, and when no cell anywhere qualifies they select
the fixed default layer (`nz // 4` in `create_boiling_frame`, `nz // 3` in
`_create_interface_slice`). -/
theorem best_slice_maximizes_interface (alpha3d : List (List ℚ)) :
    (∀ s ∈ alpha3d, countInterface s ≤
      countInterface (alpha3d.getD (findBestSlice alpha3d) [])) ∧
    ((∀ s ∈ alpha3d, countInterface s = 0) →
      findBestSlice alpha3d = alpha3d.length / 4) ∧
    (∀ s ∈ alpha3d, countInterface s ≤
      countInterface (alpha3d.getD (createInterfaceSliceIdx alpha3d) [])) ∧
    ((∀ s ∈ alpha3d, countInterface s = 0) →
      createInterfaceSliceIdx alpha3d = alpha3d.length / 3) := by
  have hsnd := goBestSlice_snd alpha3d 0 (alpha3d.length / 4) 0
  have hfst := goBestSlice_fst alpha3d 0 (alpha3d.length / 4) 0
  have hcount_le : ∀ s ∈ alpha3d,
      countInterface s ≤ (alpha3d.map countInterface).foldr max 0 :=
    fun s hs => foldr_max_le_of_mem (List.mem_map_of_mem countInterface hs)
  refine ⟨?_, ?_, ?_, ?_⟩
  · intro s hs
    rcases hfst with ⟨h1, h2⟩ | ⟨i, hi, h1, h2, h3⟩
    · rw [h2] at hsnd
      have hall : countInterface s = 0 := by
        have := hcount_le s hs
        omega
      rw [findBestSlice, h1]
      omega
    · rw [findBestSlice, h1, Nat.zero_add, ← h2, hsnd]
      have := hcount_le s hs
      omega
  · intro hall
    rcases hfst with ⟨h1, h2⟩ | ⟨i, hi, h1, h2, h3⟩
    · rw [findBestSlice, h1]
    · rw [h2] at hsnd
      have hz : (alpha3d.map countInterface).foldr max 0 = 0 := by
        apply foldr_max_zero
        intro x hx
        rcases List.mem_map.mp hx with ⟨s, hs, rfl⟩
        exact hall s hs
      omega
  · intro s hs
    rw [createInterfaceSliceIdx]
    by_cases hpos : 0 < (interface_activity alpha3d).foldr max 0
    · simp only [if_pos hpos]
      rw [← getD_map_countInterface, interface_activity, argmaxIdx_getD]
      exact hcount_le s hs
    · simp only [if_neg hpos]
      have hz : countInterface s = 0 := by
        have := hcount_le s hs
        rw [interface_activity] at hpos
        omega
      omega
  · intro hall
    rw [createInterfaceSliceIdx]
    have hz : (interface_activity alpha3d).foldr max 0 = 0 := by
      apply foldr_max_zero
      intro x hx
      rcases List.mem_map.mp hx with ⟨s, hs, rfl⟩
      exact hall s hs
    simp [hz]

/-- Witness for C4 at two concrete grids: in a grid whose second layer is the
only one with an interface cell both selectors pick index 1; in an all-water
grid with five layers both selectors fall back to their defaults `5 // 4 = 1`
and `5 // 3 = 1`. -/
theorem best_slice_maximizes_interface_witness :
    countInterface [(0 : ℚ)] ≤
      countInterface ([[(0 : ℚ)], [mkRat 1 2], [1], [1]].getD
        (findBestSlice [[(0 : ℚ)], [mkRat 1 2], [1], [1]]) []) ∧
    findBestSlice [[(1 : ℚ)], [1], [1], [1], [1]] = 1 ∧
    createInterfaceSliceIdx [[(1 : ℚ)], [1], [1], [1], [1]] = 1 := by
  refine ⟨(best_slice_maximizes_interface [[(0 : ℚ)], [mkRat 1 2], [1], [1]]).1
      [(0 : ℚ)] (by decide), ?_, ?_⟩
  · have h := (best_slice_maximizes_interface [[(1 : ℚ)], [1], [1], [1], [1]]).2.1
      (by decide)
    simpa using h
  · have h := (best_slice_maximizes_interface [[(1 : ℚ)], [1], [1], [1], [1]]).2.2.2
      (by decide)
    simpa using h

/-- Frame-render loop of `create_boiling_gif` (`simple_boiling_gif.py`, lines
169-183): for each selected timestep, `render` returns `some f` when a frame
figure was produced and saved to the file named `f` (which is then appended
to `frame_files`), and `none` when the figure was `None` or an exception was
raised — the exception is caught, logged, and the loop continues. -/
def renderFramesLoop (render : ℚ → Option String) : List ℚ → List String
  | [] => []
  | t :: rest =>
    match render t with
    | some f => f :: renderFramesLoop render rest
    | none => renderFramesLoop render rest

/-- GIF assembly and cleanup of `create_boiling_gif` (`simple_boiling_gif.py`,
lines 187-210): when `frame_files` is nonempty, `images` collects the frame
files present on disk; when `images` is nonempty the GIF is saved as
`images[0]` followed by `images[1:]` (first component `some images`) and every
existing `frame_files` entry is then removed from disk; otherwise no output
file is produced and an error is reported (third component `true`).  The
second component is the disk contents after the run. -/
def assembleGif (frame_files disk : List String) :
    Option (List String) × List String × Bool :=
  if frame_files.isEmpty then (none, disk, true)
  else
    let images := frame_files.filter (fun f => disk.contains f)
    if images.isEmpty then (none, disk, true)
    else (some images, disk.filter (fun f => !frame_files.contains f), false)

/-- The full `create_boiling_gif` pipeline after timestep selection: render
the frames (each successful frame's file is written to disk), then assemble
and clean up. -/
def create_boiling_gif_run (render : ℚ → Option String) (times : List ℚ)
    (disk : List String) : Option (List String) × List String × Bool :=
  let frame_files := renderFramesLoop render times
  assembleGif frame_files (disk ++ frame_files)

theorem contains_iff_mem {l : List String} {a : String} :
    l.contains a = true ↔ a ∈ l := by
  simp [List.contains]

theorem renderFramesLoop_eq_filterMap (render : ℚ → Option String) (l : List ℚ) :
    renderFramesLoop render l = l.filterMap render := by
  induction l with
  | nil => rfl
  | cons t rest ih =>
    rcases h : render t with _ | f <;>
      simp [renderFramesLoop, h, List.filterMap_cons, ih]

/-- Frame loop of `create_rotating_gif`
(`create_3d_boiling_visualization.py`, lines 243-254): for each viewing
angle, `create_3d_frame` and `plt.savefig` run with NO `try`/`except`, so
`render a = none` (an exception raised while rendering or saving that frame)
propagates out of the loop and the whole batch aborts (`none`); only when
every frame succeeds does the loop return the full frame-file list. -/
def renderRotatingLoop (render : ℚ → Option String) : List ℚ → Option (List String)
  | [] => some []
  | a :: rest =>
    match render a with
    | some f => (renderRotatingLoop render rest).map (fun fs => f :: fs)
    | none => none

/-- Render stub used by witnesses and counterexamples: frame `1` fails, every
other frame produces the frame file `frame.png`. -/
def renderStub : ℚ → Option String :=
  fun q => if q = 1 then none else some "frame.png"

/-- C7 counterexample: in `create_rotating_gif` a single frame's render error
is NOT caught — with the failing frame `1` between the succeeding frames `2`
and `3`, the batch aborts (`none`) instead of continuing with the remaining
frames, even though frame `3` would render successfully. -/
theorem rotating_gif_frame_error_aborts :
    renderRotatingLoop renderStub [2, 1, 3] = none ∧
    renderStub 3 = some "frame.png" ∧
    ¬ renderRotatingLoop renderStub [2, 1, 3] =
        some (List.filterMap renderStub [2, 1, 3]) := by
  decide

/-- C7 (amended): in the `create_boiling_gif` batch loop
(`simple_boiling_gif.py`, lines 173-183) a single frame's render error is
caught, the frame dropped, and the batch continues — the loop keeps exactly
the successful frames in order, and a failing timestep drops only itself;
in `create_rotating_gif` (`create_3d_boiling_visualization.py`, lines
246-254) there is no exception handling, so a single frame's render error
aborts that whole batch. -/
theorem render_error_policy_amended (render : ℚ → Option String)
    (l pre post : List ℚ) (t : ℚ) :
    (renderFramesLoop render l = l.filterMap render ∧
      (render t = none →
        renderFramesLoop render (pre ++ t :: post) =
          renderFramesLoop render pre ++ renderFramesLoop render post)) ∧
    (render t = none → renderRotatingLoop render (pre ++ t :: post) = none) := by
  refine ⟨⟨renderFramesLoop_eq_filterMap render l, fun ht => ?_⟩, fun ht => ?_⟩
  · simp [renderFramesLoop_eq_filterMap, List.filterMap_append, List.filterMap_cons, ht]
  · induction pre with
    | nil => simp [renderRotatingLoop, ht]
    | cons a pre ih =>
      rcases ha : render a with _ | f <;>
        simp [renderRotatingLoop, ha, ih]

/-- Witness for the amended C7: with the failing frame `1` between frames `2`
and `3`, the `create_boiling_gif` loop yields exactly the frames of `2` and
`3`, while the `create_rotating_gif` loop aborts. -/
theorem render_error_policy_amended_witness :
    renderFramesLoop renderStub ([2] ++ 1 :: [3]) =
      renderFramesLoop renderStub [2] ++ renderFramesLoop renderStub [3] ∧
    renderRotatingLoop renderStub ([2] ++ 1 :: [3]) = none :=
  ⟨(render_error_policy_amended renderStub [] [2] [3] 1).1.2 (by decide),
   (render_error_policy_amended renderStub [] [2] [3] 1).2 (by decide)⟩

theorem assembly_images_all_present (render : ℚ → Option String) (times : List ℚ)
    (disk : List String) :
    (renderFramesLoop render times).filter
        (fun f => (disk ++ renderFramesLoop render times).contains f) =
      renderFramesLoop render times := by
  apply List.filter_eq_self.mpr
  intro f hf
  exact contains_iff_mem.mpr (List.mem_append_right disk hf)

/-- C5: assembling from `K ≥ 1` successfully rendered frames produces an
output image sequence of exactly those `K` frames in order (the first frame
plus the `K - 1` appended ones), with no failure reported; assembling from
`0` rendered frames produces no output and reports failure. -/
theorem gif_assembly_frame_count (render : ℚ → Option String) (times : List ℚ)
    (disk : List String) :
    (1 ≤ (renderFramesLoop render times).length →
      (create_boiling_gif_run render times disk).1 = some (renderFramesLoop render times) ∧
      (create_boiling_gif_run render times disk).2.2 = false) ∧
    ((renderFramesLoop render times).length = 0 →
      (create_boiling_gif_run render times disk).1 = none ∧
      (create_boiling_gif_run render times disk).2.2 = true) := by
  constructor
  · intro hK
    have hne : (renderFramesLoop render times).isEmpty = false := by
      cases h : renderFramesLoop render times with
      | nil => rw [h] at hK; simp at hK
      | cons a l => simp
    rw [create_boiling_gif_run, assembleGif]
    rw [assembly_images_all_present render times disk]
    simp [hne]
  · intro hK
    have hnil : renderFramesLoop render times = [] := List.length_eq_zero.mp hK
    rw [create_boiling_gif_run, assembleGif]
    simp [hnil]

/-- Witness for C5: two timesteps succeed and one fails, so the output GIF
holds exactly the two rendered frames and no failure is reported; with only
the failing timestep, no output is produced and failure is reported. -/
theorem gif_assembly_frame_count_witness :
    ((create_boiling_gif_run renderStub [2, 1, 3] []).1 =
      some (renderFramesLoop renderStub [2, 1, 3]) ∧
      (create_boiling_gif_run renderStub [2, 1, 3] []).2.2 = false) ∧
    ((create_boiling_gif_run renderStub [1] []).1 = none ∧
      (create_boiling_gif_run renderStub [1] []).2.2 = true) :=
  ⟨(gif_assembly_frame_count renderStub [2, 1, 3] []).1 (by decide),
   (gif_assembly_frame_count renderStub [1] []).2 (by decide)⟩

/-- C8: after a completed assembly run — full success or partial failure —
no temporary per-frame file created during the run (i.e. no element of
`frame_files`) is still on disk. -/
theorem temp_files_deleted_after_run (render : ℚ → Option String) (times : List ℚ)
    (disk : List String) (f : String) (hf : f ∈ renderFramesLoop render times) :
    f ∉ (create_boiling_gif_run render times disk).2.1 := by
  have hne : (renderFramesLoop render times).isEmpty = false := by
    cases h : renderFramesLoop render times with
    | nil => rw [h] at hf; simp at hf
    | cons a l => simp
  rw [create_boiling_gif_run, assembleGif]
  rw [assembly_images_all_present render times disk]
  simp only [hne, Bool.false_eq_true, if_false]
  intro hmem
  have h2 := (List.mem_filter.mp hmem).2
  have h3 : (renderFramesLoop render times).contains f = true := contains_iff_mem.mpr hf
  rw [h3] at h2
  simp at h2

/-- Witness for C8: the frame file written for timestep `2` is gone from the
final disk state of a run over timesteps `2`, `1`, `3` that started with an
unrelated file on disk. -/
theorem temp_files_deleted_after_run_witness :
    "frame.png" ∉ (create_boiling_gif_run renderStub [2, 1, 3] ["other.png"]).2.1 :=
  temp_files_deleted_after_run renderStub [2, 1, 3] ["other.png"] "frame.png" (by decide)

/-- Stride-subsampled indices `0, step, 2*step, ...` below `n`: Python slice
`[::step]` of `range(n)`. -/
def strideIdx (n step : ℕ) : List ℕ :=
  (List.range n).filter (fun i => i % step == 0)

/-- Subsampled grid points `(k, j, i)` of `alpha_3d[::step, ::step, ::step]`
in `create_ultimate_3d_viz` (`ultimate_3d_boiling_viz.py`, line 101). -/
def subPoints (nx ny nz step : ℕ) : List (ℕ × ℕ × ℕ) :=
  (strideIdx nz step).flatMap (fun k =>
    (strideIdx ny step).flatMap (fun j =>
      (strideIdx nx step).map (fun i => (k, j, i))))

/-- Water-majority bucket `water_mask = alpha_sub > 0.8`
(`ultimate_3d_boiling_viz.py`, line 110); `0.8` is modelled as `8/10`. -/
def water_mask (alpha : ℕ × ℕ × ℕ → ℚ) (pts : List (ℕ × ℕ × ℕ)) : List (ℕ × ℕ × ℕ) :=
  pts.filter (fun p => decide (mkRat 8 10 < alpha p))

/-- Interface-band bucket `interface_mask = (alpha_sub > 0.2) & (alpha_sub < 0.8)`
(`ultimate_3d_boiling_viz.py`, line 124). -/
def interface_mask (alpha : ℕ × ℕ × ℕ → ℚ) (pts : List (ℕ × ℕ × ℕ)) : List (ℕ × ℕ × ℕ) :=
  pts.filter (fun p => decide (mkRat 2 10 < alpha p) && decide (alpha p < mkRat 8 10))

/-- Vapor-majority bucket `vapor_mask = alpha_sub < 0.2`
(`ultimate_3d_boiling_viz.py`, line 140). -/
def vapor_mask (alpha : ℕ × ℕ × ℕ → ℚ) (pts : List (ℕ × ℕ × ℕ)) : List (ℕ × ℕ × ℕ) :=
  pts.filter (fun p => decide (alpha p < mkRat 2 10))

/-- C9: for a subsampled synthetic field whose volume fraction is exactly `1`
at every point whose layer index lies below the plane `zcut` and exactly `0`
above it, the interface band selected by the `0.2 < α < 0.8` thresholds is
empty, the water-majority bucket (`α > 0.8`) is exactly the below-plane
points, and the three phase buckets are pairwise disjoint. -/
theorem phase_buckets_plane_field (nx ny nz step zcut : ℕ)
    (alpha : ℕ × ℕ × ℕ → ℚ)
    (h : ∀ p ∈ subPoints nx ny nz step, alpha p = if p.1 < zcut then 1 else 0) :
    interface_mask alpha (subPoints nx ny nz step) = [] ∧
    water_mask alpha (subPoints nx ny nz step) =
      (subPoints nx ny nz step).filter (fun p => decide (p.1 < zcut)) ∧
    (∀ p : ℕ × ℕ × ℕ,
      ¬(p ∈ water_mask alpha (subPoints nx ny nz step) ∧
        p ∈ interface_mask alpha (subPoints nx ny nz step)) ∧
      ¬(p ∈ water_mask alpha (subPoints nx ny nz step) ∧
        p ∈ vapor_mask alpha (subPoints nx ny nz step)) ∧
      ¬(p ∈ interface_mask alpha (subPoints nx ny nz step) ∧
        p ∈ vapor_mask alpha (subPoints nx ny nz step))) := by
  refine ⟨?_, ?_, ?_⟩
  · rw [interface_mask]
    rw [List.filter_eq_nil_iff]
    intro p hp
    rw [h p hp]
    by_cases hz : p.1 < zcut <;> simp [hz] <;> decide
  · rw [water_mask]
    apply List.filter_congr
    intro p hp
    rw [h p hp]
    by_cases hz : p.1 < zcut <;> simp [hz] <;> decide
  · intro p
    refine ⟨fun ⟨h1, h2⟩ => ?_, fun ⟨h1, h2⟩ => ?_, fun ⟨h1, h2⟩ => ?_⟩
    · have hw := (List.mem_filter.mp h1).2
      have hi := (List.mem_filter.mp h2).2
      rw [decide_eq_true_eq] at hw
      rw [Bool.and_eq_true, decide_eq_true_eq, decide_eq_true_eq] at hi
      exact absurd (lt_trans hw hi.2) (by decide)
    · have hw := (List.mem_filter.mp h1).2
      have hv := (List.mem_filter.mp h2).2
      rw [decide_eq_true_eq] at hw
      rw [decide_eq_true_eq] at hv
      have : mkRat 8 10 < mkRat 2 10 := lt_trans hw hv
      exact absurd this (by decide)
    · have hi := (List.mem_filter.mp h1).2
      have hv := (List.mem_filter.mp h2).2
      rw [Bool.and_eq_true, decide_eq_true_eq, decide_eq_true_eq] at hi
      rw [decide_eq_true_eq] at hv
      exact absurd (lt_trans hi.1 hv) (by decide)

/-- Synthetic plane field used by the C9 witness: volume fraction `1` on
layer `0`, `0` elsewhere. -/
def alphaPlane : ℕ × ℕ × ℕ → ℚ :=
  fun p => if p.1 < 1 then 1 else 0

/-- Witness for C9 on a concrete `2 × 2 × 2` grid subsampled with stride `1`
and the plane `zcut = 1`: empty interface band and water bucket equal to the
below-plane points. -/
theorem phase_buckets_plane_field_witness :
    interface_mask alphaPlane (subPoints 2 2 2 1) = [] ∧
    water_mask alphaPlane (subPoints 2 2 2 1) =
      (subPoints 2 2 2 1).filter (fun p => decide (p.1 < 1)) := by
  have h := phase_buckets_plane_field 2 2 2 1 1 alphaPlane (by decide)
  exact ⟨h.1, h.2.1⟩

/-- Data-block scan of `_read_openfoam_field`
(`create_3d_boiling_visualization.py`, lines 66-82): same marker/stop logic;
inside the data section a nonempty line not starting with `(` is processed,
and the value is parsed and collected only when the line is not all digits
("Skip count lines"). -/
def scanData3d (pf : String → Option ℚ) : List String → Bool → List ℚ
  | [], _ => []
  | l :: rest, inData =>
    let line := pyStrip l
    if strHasSub line "internalField" && strHasSub line "nonuniform" then
      scanData3d pf rest true
    else if inData then
      if line == ")" || line == ");" then []
      else if pyTruthy line && !pyStartsWith line "(" then
        if !pyIsDigit line then
          match pf line with
          | some v => v :: scanData3d pf rest inData
          | none => scanData3d pf rest inData
        else scanData3d pf rest inData
      else scanData3d pf rest inData
    else scanData3d pf rest inData

theorem listHasSub_digits_false {cs : List Char} (h : cs.all Char.isDigit = true)
    {c0 : Char} (hc0 : c0.isDigit = false) (p : List Char) :
    listHasSub cs (c0 :: p) = false := by
  induction cs with
  | nil => rfl
  | cons c cs ih =>
    rw [List.all_cons, Bool.and_eq_true] at h
    obtain ⟨hc, hcs⟩ := h
    have hne : (c == c0) = false := by
      rcases hbeq : c == c0 with _ | _
      · rfl
      · rw [beq_iff_eq] at hbeq
        rw [hbeq] at hc
        rw [hc] at hc0
        cases hc0
    simp only [listHasSub, listStarts, hne, Bool.false_and, Bool.false_or]
    exact ih hcs

theorem pyIsDigit_marker_false {t : String} (h : pyIsDigit t = true) :
    strHasSub t "internalField" = false := by
  obtain ⟨-, hall⟩ := Bool.and_eq_true_iff.mp h
  exact listHasSub_digits_false hall (by decide) _

theorem pyIsDigit_not_paren {t : String} (h : pyIsDigit t = true) :
    (t == ")") = false ∧ (t == ");") = false := by
  constructor
  · rcases hbeq : t == ")" with _ | _
    · rfl
    · rw [beq_iff_eq] at hbeq
      rw [hbeq] at h
      cases h
  · rcases hbeq : t == ");" with _ | _
    · rfl
    · rw [beq_iff_eq] at hbeq
      rw [hbeq] at h
      cases h

theorem scanDataSection_digit_skip (pf : String → Option ℚ) (s : String)
    (rest : List String) (b : Bool) (h : pyIsDigit (pyStrip s) = true) :
    scanDataSection pf (s :: rest) b = scanDataSection pf rest b := by
  obtain ⟨hp1, hp2⟩ := pyIsDigit_not_paren h
  cases b with
  | false =>
    simp [scanDataSection, pyIsDigit_marker_false h]
  | true =>
    simp [scanDataSection, pyIsDigit_marker_false h, hp1, hp2, h]

theorem scanDataRobust_digit_skip (pf : String → Option ℚ) (s : String)
    (rest : List String) (b : Bool) (h : pyIsDigit (pyStrip s) = true) :
    scanDataRobust pf (s :: rest) b = scanDataRobust pf rest b := by
  obtain ⟨hp1, hp2⟩ := pyIsDigit_not_paren h
  cases b with
  | false =>
    simp [scanDataRobust, pyIsDigit_marker_false h]
  | true =>
    simp [scanDataRobust, pyIsDigit_marker_false h, hp1, hp2, h]

theorem scanData3d_digit_skip (pf : String → Option ℚ) (s : String)
    (rest : List String) (b : Bool) (h : pyIsDigit (pyStrip s) = true) :
    scanData3d pf (s :: rest) b = scanData3d pf rest b := by
  obtain ⟨hp1, hp2⟩ := pyIsDigit_not_paren h
  cases b with
  | false =>
    simp [scanData3d, pyIsDigit_marker_false h]
  | true =>
    by_cases hc : pyTruthy (pyStrip s) && !pyStartsWith (pyStrip s) "(" <;>
      simp [scanData3d, pyIsDigit_marker_false h, hp1, hp2, h, hc]

theorem scanDataSection_cons_congr (pf : String → Option ℚ) (l : String)
    {L L' : List String} (h : ∀ b, scanDataSection pf L b = scanDataSection pf L' b)
    (b : Bool) :
    scanDataSection pf (l :: L) b = scanDataSection pf (l :: L') b := by
  simp only [scanDataSection]
  simp only [h]

theorem scanDataRobust_cons_congr (pf : String → Option ℚ) (l : String)
    {L L' : List String} (h : ∀ b, scanDataRobust pf L b = scanDataRobust pf L' b)
    (b : Bool) :
    scanDataRobust pf (l :: L) b = scanDataRobust pf (l :: L') b := by
  simp only [scanDataRobust]
  simp only [h]

theorem scanData3d_cons_congr (pf : String → Option ℚ) (l : String)
    {L L' : List String} (h : ∀ b, scanData3d pf L b = scanData3d pf L' b)
    (b : Bool) :
    scanData3d pf (l :: L) b = scanData3d pf (l :: L') b := by
  simp only [scanData3d]
  simp only [h]

/-- C10: in every marker-scan parser variant, a data-block line consisting
solely of digit characters is excluded from the output (treated as the count
line): deleting such a line from the input leaves the collected value
sequence unchanged, so a genuine value printed as a bare non-negative integer
is silently dropped rather than collected. -/
theorem digit_only_line_dropped (pf : String → Option ℚ) (pre post : List String)
    (s : String) (b : Bool) (h : pyIsDigit (pyStrip s) = true) :
    scanDataSection pf (pre ++ s :: post) b = scanDataSection pf (pre ++ post) b ∧
    scanDataRobust pf (pre ++ s :: post) b = scanDataRobust pf (pre ++ post) b ∧
    scanData3d pf (pre ++ s :: post) b = scanData3d pf (pre ++ post) b := by
  induction pre generalizing b with
  | nil =>
    exact ⟨scanDataSection_digit_skip pf s post b h,
      scanDataRobust_digit_skip pf s post b h,
      scanData3d_digit_skip pf s post b h⟩
  | cons l pre ih =>
    refine ⟨?_, ?_, ?_⟩
    · exact scanDataSection_cons_congr pf l (fun b' => (ih b').1) b
    · exact scanDataRobust_cons_congr pf l (fun b' => (ih b').2.1) b
    · exact scanData3d_cons_congr pf l (fun b' => (ih b').2.2) b

/-- Witness for C10: inside a data block holding the bare integer line `"0"`
and the value `-5`, the scanned output is the same as if the `"0"` line were
absent — the genuine value `0` is dropped. -/
theorem digit_only_line_dropped_witness :
    scanDataSection parseDecimal
        (["internalField nonuniform List<scalar>", "("] ++ "0" :: ["-5", ")"]) false =
      scanDataSection parseDecimal
        (["internalField nonuniform List<scalar>", "("] ++ ["-5", ")"]) false :=
  (digit_only_line_dropped parseDecimal ["internalField nonuniform List<scalar>", "("]
    ["-5", ")"] "0" false (by decide)).1
